import Mathlib

set_option maxHeartbeats 1000000

namespace SpaServer

/-
Shallow embedding of wallet-frontend/spa-server.py together with the parts of
CPython's http.server (SimpleHTTPRequestHandler), posixpath and urllib.parse
that the script invokes.  A request is its raw HTTP request target (a string,
as stored in handler.path); the document tree under the configured root is
modelled explicitly.  Characters of the request target stand for its bytes
(percent escapes are decoded byte-wise, which agrees with urllib.parse.unquote
on ASCII data).
-/

/-- A node of the document tree: a regular file with its byte contents and a
flag recording whether open() succeeds on it (open of an unreadable file
raises OSError), or a directory. -/
inductive Node
  | file (bytes : List Nat) (readable : Bool)
  | dir
deriving DecidableEq

/-- The document tree under the root: an association list from root-relative
component paths (the empty list is the document root itself) to nodes. -/
structure FS where
  entries : List (List String × Node)
deriving DecidableEq

/-- Stat-style lookup of a root-relative component path. -/
def lookupFS (fs : FS) (comps : List String) : Option Node :=
  (fs.entries.find? (fun e => e.1 == comps)).map (fun e => e.2)

/-- CPython str.split for a one-character separator (no maxsplit). -/
def splitOnChar (sep : Char) : List Char → List (List Char)
  | [] => [[]]
  | c :: rest =>
    let r := splitOnChar sep rest
    if c = sep then [] :: r
    else (c :: r.headD []) :: r.tail

/-- translate_path's query/fragment stripping: path.split(chr(63),1)[0] then
.split(chr(35),1)[0], i.e. the part of the target before the first question
mark or hash. -/
def stripQuery (cs : List Char) : List Char :=
  (cs.takeWhile (fun c => c ≠ '?')).takeWhile (fun c => c ≠ '#')

/-- str.rstrip(): drop trailing whitespace (Lean's Char.isWhitespace covers the
ASCII whitespace CPython strips; the difference is outside ASCII). -/
def rstrip (cs : List Char) : List Char :=
  (cs.reverse.dropWhile Char.isWhitespace).reverse

/-- Value of a hexadecimal digit, as in urllib.parse's escape decoding. -/
def hexVal (c : Char) : Option Nat :=
  if '0' ≤ c ∧ c ≤ '9' then some (c.toNat - '0'.toNat)
  else if 'a' ≤ c ∧ c ≤ 'f' then some (c.toNat - 'a'.toNat + 10)
  else if 'A' ≤ c ∧ c ≤ 'F' then some (c.toNat - 'A'.toNat + 10)
  else none

/-- urllib.parse.unquote, byte-wise: every valid percent escape becomes the
character with that code, invalid escapes are left untouched.  (CPython
reassembles consecutive escaped bytes into UTF-8 characters; byte-wise
decoding coincides with that on ASCII escapes.) -/
def unquoteChars : List Char → List Char
  | '%' :: a :: b :: rest =>
    match hexVal a, hexVal b with
    | some hi, some lo => Char.ofNat (16 * hi + lo) :: unquoteChars rest
    | _, _ => '%' :: unquoteChars (a :: b :: rest)
  | c :: rest => c :: unquoteChars rest
  | [] => []

/-- posixpath.normpath's count of leading slashes kept in the result (two
leading slashes are preserved, one and three or more collapse to one). -/
def initialSlashes : List Char → Nat
  | '/' :: '/' :: '/' :: _ => 1
  | '/' :: '/' :: _ => 2
  | '/' :: _ => 1
  | _ => 0

/-- Loop body of posixpath.normpath over the slash-separated components:
drop empty and dot components, cancel a dot-dot against a preceding kept
component, keep leading dot-dots of a relative path. -/
def npStep (k : Nat) (acc : List (List Char)) (comp : List Char) : List (List Char) :=
  if comp = [] ∨ comp = ['.'] then acc
  else if comp ≠ ['.', '.'] ∨ (k = 0 ∧ acc = []) ∨ acc.getLast? = some ['.', '.'] then
    acc ++ [comp]
  else if acc = [] then acc
  else acc.dropLast

/-- posixpath.normpath, returned as the slash-separated components of the
result.  translate_path immediately re-splits normpath's string on slashes
and drops empty components, so the surviving components carry all the
information it uses (the leading slashes and the dot produced for an empty
result re-split to empty or to a lone dot, both of which translate_path
filters out). -/
def normpathWords (cs : List Char) : List (List Char) :=
  (splitOnChar '/' cs).foldl (npStep (initialSlashes cs)) []

/-- SimpleHTTPRequestHandler.translate_path.  The CPython original returns
self.directory joined with the surviving simple words, plus a trailing slash
when the (rstripped) request path had one; that string is determined by the
root-relative word list and the trailing-slash flag, which we return.  The
original skips a word when os.path.dirname(word) is nonempty or the word is
os.curdir or os.pardir; words coming from a slash split never contain a
slash, so the dirname test is vacuous and the filter below is exactly the
curdir/pardir test. -/
def translate_path (rawPath : String) : List String × Bool :=
  let path := stripQuery rawPath.data
  let trailingSlash := (rstrip path).getLast? == some '/'
  let path1 := unquoteChars path
  let words := normpathWords path1
  let words1 := words.filter (fun w => w ≠ [])
  let words2 := words1.filter (fun w => ¬ (w = ['.'] ∨ w = ['.', '.']))
  (words2.map (fun w => String.mk w), trailingSlash)

/-- posixpath.basename: everything after the last slash. -/
def basenameChars (cs : List Char) : List Char :=
  (splitOnChar '/' cs).getLastD []

/-- os.path.isfile of the translated path: a path with a trailing slash never
stats to a regular file; otherwise the path must resolve to a regular file
(readability is irrelevant to stat). -/
def isfile (fs : FS) (r : List String × Bool) : Bool :=
  !r.2 && (match lookupFS fs r.1 with
           | some (Node.file _ _) => true
           | _ => false)

/-- os.path.isdir of the translated path (a trailing slash is fine on a
directory; a missing path or a regular file is not a directory). -/
def isdir (fs : FS) (r : List String × Bool) : Bool :=
  match lookupFS fs r.1 with
  | some Node.dir => true
  | _ => false

/-- open(path, mode rb) followed by reading the whole file: OSError — missing
path, directory, or unreadable file — yields none. -/
def openFile (fs : FS) (comps : List String) : Option (List Nat) :=
  match lookupFS fs comps with
  | some (Node.file b true) => some b
  | _ => none

/-- Position of the last dot of a name, if any. -/
def lastDotIdx (cs : List Char) : Option Nat :=
  ((List.range cs.length).filter (fun i => cs.get? i = some '.')).getLast?

/-- The extension part of posixpath.splitext applied to a basename: the suffix
from the last dot, provided some earlier character of the name is not a dot
(so dotfiles have no extension). -/
def extOfBase (base : List Char) : List Char :=
  match lastDotIdx base with
  | none => []
  | some i => if (base.take i).any (fun c => c ≠ '.') then base.drop i else []

/-- The mimetypes default type map restricted to entries a built SPA can meet;
anything unknown maps to application/octet-stream below, as in
SimpleHTTPRequestHandler.guess_type. -/
def extMap (ext : String) : Option String :=
  if ext = ".html" ∨ ext = ".htm" then some "text/html"
  else if ext = ".js" ∨ ext = ".mjs" then some "text/javascript"
  else if ext = ".css" then some "text/css"
  else if ext = ".json" then some "application/json"
  else if ext = ".png" then some "image/png"
  else if ext = ".jpg" ∨ ext = ".jpeg" then some "image/jpeg"
  else if ext = ".svg" then some "image/svg+xml"
  else if ext = ".ico" then some "image/vnd.microsoft.icon"
  else if ext = ".txt" then some "text/plain"
  else if ext = ".gz" then some "application/gzip"
  else if ext = ".wasm" then some "application/wasm"
  else none

/-- SimpleHTTPRequestHandler.guess_type on an extension: the map is consulted
with the extension as given, then lowercased, then the default is
application/octet-stream. -/
def guessTypeExt (ext : List Char) : String :=
  match extMap (String.mk ext) with
  | some t => t
  | none =>
    match extMap (String.mk (ext.map Char.toLower)) with
    | some t => t
    | none => "application/octet-stream"

/-- guess_type of the translated path: the extension of its basename, which is
the last surviving word (a path with a trailing slash has an empty basename;
with no words the basename is that of the configured root directory, whose
name carries no dot in this deployment, so the extension is empty). -/
def guess_type (comps : List String) (trailing : Bool) : String :=
  let base := if trailing then [] else (comps.getLastD "").data
  guessTypeExt (extOfBase base)

/-- Body of a response: the bytes of a served file, a generated directory
listing page for a directory, or a generated page carrying no file contents
(error pages and the empty body of a redirect). -/
inductive Body
  | bytes (b : List Nat)
  | listing (d : List String)
  | other
deriving DecidableEq

/-- Status line, Content-Type header and body of a response. -/
structure Response where
  status : Nat
  contentType : Option String
  body : Body
deriving DecidableEq

/-- send_error: an HTML error page with the given status. -/
def errorResponse (status : Nat) : Response :=
  ⟨status, some "text/html;charset=utf-8", Body.other⟩

/-- The tail of send_head plus the body copy of do_GET: a translated path with
a trailing slash is 404 (see CPython issue 17324); otherwise open the file —
OSError is 404 — and serve its bytes as 200 with the guessed content type. -/
def servePath (fs : FS) (comps : List String) (trailing : Bool) : Response :=
  if trailing then errorResponse 404
  else
    match openFile fs comps with
    | none => errorResponse 404
    | some b => ⟨200, some (guess_type comps trailing), Body.bytes b⟩

/-- The index-file loop of send_head: the first of index.html, index.htm that
is a regular file inside the directory. -/
def findIndex (fs : FS) (comps : List String) : Option (List String) :=
  if isfile fs (comps ++ ["index.html"], false) then some (comps ++ ["index.html"])
  else if isfile fs (comps ++ ["index.htm"], false) then some (comps ++ ["index.htm"])
  else none

/-- SimpleHTTPRequestHandler.do_GET, i.e. send_head followed by copying the
file bytes.  On a directory: if the path part of the request target (urlsplit
drops query and fragment) lacks a trailing slash, answer a 301 redirect with
an empty body; otherwise serve an index file found in the directory, or a
generated listing page.  Otherwise serve the translated path. -/
def simple_do_GET (fs : FS) (rawPath : String) : Response :=
  if isdir fs (translate_path rawPath) then
    if !((stripQuery rawPath.data).getLast? == some '/') then
      ⟨301, none, Body.other⟩
    else
      match findIndex fs (translate_path rawPath).1 with
      | some idx => servePath fs idx false
      | none => ⟨200, some "text/html; charset=utf-8", Body.listing (translate_path rawPath).1⟩
  else
    servePath fs (translate_path rawPath).1 (translate_path rawPath).2

/-- SPAHTTPRequestHandler.do_GET (spa-server.py lines 10-24): serve an
existing regular file as-is; if the basename of the raw request target
contains a dot, fall through to the default handler (missing asset);
otherwise rewrite the request target to /index.html and fall through. -/
def do_GET (fs : FS) (rawPath : String) : Response :=
  if isfile fs (translate_path rawPath) then simple_do_GET fs rawPath
  else if (basenameChars rawPath.data).contains '.' then simple_do_GET fs rawPath
  else simple_do_GET fs "/index.html"

/-- serve_forever on a single-threaded TCPServer: requests are answered one at
a time, each by a freshly constructed handler object, so a request's response
depends only on the document tree and that request's target (the request line
parser reassigns handler.path on every request, so the rewrite on line 23 of
spa-server.py never leaks into a later request). -/
def serve (fs : FS) : List String → List Response
  | [] => []
  | r :: rs => do_GET fs r :: serve fs rs

/-- What the process start (spa-server.py lines 29-33) can observe of its
environment: whether os.chdir(DIRECTORY) succeeds (the document root exists
and is accessible) and whether TCPServer can bind the port. -/
structure Env where
  rootOk : Bool
  portFree : Bool
deriving DecidableEq

/-- The two startup failures: os.chdir raising OSError (missing or unreadable
document root) and TCPServer.__init__ raising OSError (address in use). -/
inductive StartupError
  | rootMissing
  | portInUse
deriving DecidableEq

/-- The diagnostic CPython prints with the fatal traceback of the uncaught
exception. -/
def diagnostic : StartupError → String
  | StartupError.rootMissing => "OSError: cannot change directory to document root"
  | StartupError.portInUse => "OSError: address already in use"

/-- Process start, spa-server.py lines 29-33: os.chdir(DIRECTORY), then bind
the port, then serve every incoming request; an exception from either startup
step is uncaught, so the interpreter terminates before any request is served
and no step is retried (the script is straight-line code with no loop around
startup). -/
def startup (env : Env) (fs : FS) (reqs : List String) : Except StartupError (List Response) :=
  if env.rootOk = false then Except.error StartupError.rootMissing
  else if env.portFree = false then Except.error StartupError.portInUse
  else Except.ok (serve fs reqs)

/-- CPython's exit status: 0 on normal termination, 1 when killed by an
uncaught exception. -/
def exitCode : Except StartupError (List Response) → Nat
  | Except.error _ => 1
  | Except.ok _ => 0

/-- The responses actually delivered to clients over the process's lifetime. -/
def servedResponses : Except StartupError (List Response) → List Response
  | Except.error _ => []
  | Except.ok rs => rs

/-- A small concrete document tree used to instantiate the theorems: the root
with an index.html, a script, and an asset directory holding one image. -/
def fsW : FS :=
  ⟨[([], Node.dir),
    (["index.html"], Node.file [60, 104] true),
    (["app.js"], Node.file [1, 2, 3] true),
    (["assets"], Node.dir),
    (["assets", "a.png"], Node.file [9] true)]⟩

/-- A document tree holding only the root directory. -/
def fsRootOnly : FS := ⟨[([], Node.dir)]⟩

/-- A document tree whose one file exists but cannot be opened (open raises
OSError, e.g. EACCES). -/
def fsLocked : FS := ⟨[([], Node.dir), (["app.js"], Node.file [7] false)]⟩

/-- A successful lookup is the stat of an actual entry of the document tree. -/
theorem lookupFS_mem {fs : FS} {comps : List String} {n : Node}
    (h : lookupFS fs comps = some n) : (comps, n) ∈ fs.entries := by
  unfold lookupFS at h
  rcases Option.map_eq_some'.mp h with ⟨e, hfind, he2⟩
  have hmem := List.mem_of_find?_eq_some hfind
  have hpred := List.find?_some hfind
  have h1 : e.1 = comps := by simpa using hpred
  have he : e = (comps, n) := by
    cases e
    simp_all
  rwa [he] at hmem

/-- Every 200 response with file bytes produced by servePath comes from a
readable regular file found at the given root-relative path. -/
theorem servePath_bytes {fs : FS} {comps : List String} {t : Bool}
    {ct : Option String} {b : List Nat}
    (h : servePath fs comps t = ⟨200, ct, Body.bytes b⟩) :
    lookupFS fs comps = some (Node.file b true) := by
  unfold servePath at h
  split at h
  · exact absurd h (by simp [errorResponse])
  · unfold openFile at h
    rcases hl : lookupFS fs comps with _ | n
    · rw [hl] at h
      exact absurd h (by simp [errorResponse])
    · rcases n with ⟨bb, rd⟩ | _
      · rcases rd with _ | _
        · rw [hl] at h
          exact absurd h (by simp [errorResponse])
        · rw [hl] at h
          simp only [Response.mk.injEq, Body.bytes.injEq] at h
          rw [h.2.2]
      · rw [hl] at h
        exact absurd h (by simp [errorResponse])

/-- Every 200-with-bytes response of the default handler comes from a readable
regular file of the document tree. -/
theorem simple_do_GET_bytes {fs : FS} {raw : String} {ct : Option String} {b : List Nat}
    (h : simple_do_GET fs raw = ⟨200, ct, Body.bytes b⟩) :
    ∃ comps, lookupFS fs comps = some (Node.file b true) := by
  unfold simple_do_GET at h
  split at h
  · split at h
    · exact absurd h (by simp)
    · split at h
      · exact ⟨_, servePath_bytes h⟩
      · exact absurd h (by simp)
  · exact ⟨_, servePath_bytes h⟩

/-- Every 200-with-bytes response of the SPA handler comes from a readable
regular file of the document tree. -/
theorem do_GET_bytes {fs : FS} {raw : String} {ct : Option String} {b : List Nat}
    (h : do_GET fs raw = ⟨200, ct, Body.bytes b⟩) :
    ∃ comps, lookupFS fs comps = some (Node.file b true) := by
  unfold do_GET at h
  split at h
  · exact simple_do_GET_bytes h
  · split at h
    · exact simple_do_GET_bytes h
    · exact simple_do_GET_bytes h

/-- Serving the rewritten target /index.html when the fallback document is a
readable regular file yields 200 with its bytes and the html content type. -/
theorem fallback_index {fs : FS} {b : List Nat}
    (hidx : lookupFS fs ["index.html"] = some (Node.file b true)) :
    simple_do_GET fs "/index.html" = ⟨200, some "text/html", Body.bytes b⟩ := by
  have ht : translate_path "/index.html" = (["index.html"], false) := by decide
  have hg : guess_type ["index.html"] false = "text/html" := by decide
  unfold simple_do_GET
  rw [ht]
  have hd : isdir fs (["index.html"], false) = false := by
    simp [isdir, hidx]
  rw [hd]
  simp only [Bool.false_eq_true, if_false]
  unfold servePath openFile
  rw [hidx]
  simp [hg]

/-- Claim C1: for every HTTP GET whose resolved path names no existing regular
file and whose final path segment contains no dot, the server rewrites the
effective path to the fallback document and responds 200 with body bytes
identical to the root's index.html. -/
theorem spa_fallback_serves_index (fs : FS) (raw : String) (b : List Nat)
    (hnf : isfile fs (translate_path raw) = false)
    (hnd : (basenameChars raw.data).contains '.' = false)
    (hidx : lookupFS fs ["index.html"] = some (Node.file b true)) :
    do_GET fs raw = ⟨200, some "text/html", Body.bytes b⟩ := by
  unfold do_GET
  rw [hnf, hnd]
  simp only [Bool.false_eq_true, if_false]
  exact fallback_index hidx

/-- Witness for C1 on the concrete tree: a GET for the extensionless missing
route /dashboard answers 200 with the bytes of index.html. -/
theorem spa_fallback_serves_index_witness :
    do_GET fsW "/dashboard" = ⟨200, some "text/html", Body.bytes [60, 104]⟩ :=
  spa_fallback_serves_index fsW "/dashboard" [60, 104]
    (by decide) (by decide) (by decide)

/-- Claim C2: for every HTTP GET whose path resolves under the document root to
an existing (readable) regular file, the response is 200 with exactly that
file's bytes and a Content-Type inferred from the file extension. -/
theorem spa_existing_file_served (fs : FS) (raw : String) (comps : List String)
    (b : List Nat)
    (ht : translate_path raw = (comps, false))
    (hf : lookupFS fs comps = some (Node.file b true)) :
    do_GET fs raw = ⟨200, some (guess_type comps false), Body.bytes b⟩ := by
  have hisf : isfile fs (translate_path raw) = true := by
    rw [ht]
    simp [isfile, hf]
  unfold do_GET
  rw [hisf]
  simp only [if_true]
  unfold simple_do_GET
  rw [ht]
  have hd : isdir fs (comps, false) = false := by
    simp [isdir, hf]
  rw [hd]
  simp only [Bool.false_eq_true, if_false]
  unfold servePath openFile
  rw [hf]
  simp

/-- Witness for C2 on the concrete tree: a GET for the existing /app.js answers
200 with its bytes and the content type guessed from the .js extension. -/
theorem spa_existing_file_served_witness :
    do_GET fsW "/app.js" = ⟨200, some (guess_type ["app.js"] false), Body.bytes [1, 2, 3]⟩ :=
  spa_existing_file_served fsW "/app.js" ["app.js"] [1, 2, 3] (by decide) (by decide)

/-- Claim C8: a GET for the root path answers 200 with body equal to the
contents of index.html (in this handler the root path takes the fallback
branch, since the translated root directory path is not a regular file and
the basename of the target carries no dot, with the same observable result). -/
theorem spa_root_serves_index (fs : FS) (b : List Nat)
    (hidx : lookupFS fs ["index.html"] = some (Node.file b true)) :
    do_GET fs "/" = ⟨200, some "text/html", Body.bytes b⟩ := by
  have ht : translate_path "/" = ([], true) := by decide
  have hnd : (basenameChars "/".data).contains '.' = false := by decide
  have hnf : isfile fs (translate_path "/") = false := by
    rw [ht]
    simp [isfile]
  unfold do_GET
  rw [hnf, hnd]
  simp only [Bool.false_eq_true, if_false]
  exact fallback_index hidx

/-- Witness for C8 on the concrete tree. -/
theorem spa_root_serves_index_witness :
    do_GET fsW "/" = ⟨200, some "text/html", Body.bytes [60, 104]⟩ :=
  spa_root_serves_index fsW [60, 104] (by decide)

/-- Claim C9: a GET whose resolved path is an existing directory and whose
final request segment contains no dot serves the fallback index.html — never
a directory listing and never a redirect — exactly like a missing route. -/
theorem spa_directory_fallback (fs : FS) (raw : String) (comps : List String)
    (t : Bool) (b : List Nat)
    (ht : translate_path raw = (comps, t))
    (hd : lookupFS fs comps = some Node.dir)
    (hnd : (basenameChars raw.data).contains '.' = false)
    (hidx : lookupFS fs ["index.html"] = some (Node.file b true)) :
    do_GET fs raw = ⟨200, some "text/html", Body.bytes b⟩ ∧
      (do_GET fs raw).status ≠ 301 ∧
      ∀ d, (do_GET fs raw).body ≠ Body.listing d := by
  have hnf : isfile fs (translate_path raw) = false := by
    rw [ht]
    simp [isfile, hd]
  have hmain : do_GET fs raw = ⟨200, some "text/html", Body.bytes b⟩ := by
    unfold do_GET
    rw [hnf, hnd]
    simp only [Bool.false_eq_true, if_false]
    exact fallback_index hidx
  refine ⟨hmain, ?_, ?_⟩
  · rw [hmain]
    simp
  · intro d
    rw [hmain]
    simp

/-- Witness for C9 on the concrete tree: the existing directory /assets is
served as the fallback document, not redirected. -/
theorem spa_directory_fallback_witness :
    do_GET fsW "/assets" = ⟨200, some "text/html", Body.bytes [60, 104]⟩ ∧
      (do_GET fsW "/assets").status ≠ 301 :=
  ⟨(spa_directory_fallback fsW "/assets" ["assets"] false [60, 104]
      (by decide) (by decide) (by decide) (by decide)).1,
   (spa_directory_fallback fsW "/assets" ["assets"] false [60, 104]
      (by decide) (by decide) (by decide) (by decide)).2.1⟩

/-- Claim C3, counterexample: the target whose path is a slash followed by a
dot resolves to the document root itself — so it names no existing regular
file — and its final segment contains a dot, yet the handler answers a 301
redirect (send_head's directory branch fires, the path part lacking a
trailing slash), not 404. -/
theorem spa_dotted_missing_counterexample :
    isfile fsRootOnly (translate_path "/.") = false ∧
      (basenameChars "/.".data).contains '.' = true ∧
      do_GET fsRootOnly "/." = ⟨301, none, Body.other⟩ ∧
      (do_GET fsRootOnly "/.").status ≠ 404 := by
  decide

/-- Claim C3 as amended: for every GET whose resolved path names no existing
file **or directory** — nothing is stat-able there — and whose final raw
segment contains a dot, the SPA fallback is not applied and the answer is
the stock 404 error page. -/
theorem spa_dotted_nonexistent_404 (fs : FS) (raw : String)
    (hmiss : lookupFS fs (translate_path raw).1 = none)
    (hdot : (basenameChars raw.data).contains '.' = true) :
    do_GET fs raw = errorResponse 404 := by
  have hnf : isfile fs (translate_path raw) = false := by
    simp [isfile, hmiss]
  have hnd : isdir fs (translate_path raw) = false := by
    simp [isdir, hmiss]
  unfold do_GET
  rw [hnf, hdot]
  simp only [Bool.false_eq_true, if_false, if_true]
  unfold simple_do_GET
  rw [hnd]
  simp only [Bool.false_eq_true, if_false]
  unfold servePath openFile
  rw [hmiss]
  simp

/-- Witness for the amended C3: a GET for the wholly missing /missing.png
answers 404. -/
theorem spa_dotted_nonexistent_404_witness :
    do_GET fsW "/missing.png" = errorResponse 404 :=
  spa_dotted_nonexistent_404 fsW "/missing.png" (by decide) (by decide)

/-- Claim C10: the extension test is applied to the final segment of the raw
request target, query string included — a GET for a nonexistent extensionless
path whose target carries a dotted query string after the last slash answers
404 instead of the SPA fallback. -/
theorem spa_query_dot_404 (fs : FS) (raw : String)
    (hmiss : lookupFS fs (translate_path raw).1 = none)
    (hdotRaw : (basenameChars raw.data).contains '.' = true)
    (_hnoExt : (basenameChars (stripQuery raw.data)).contains '.' = false) :
    do_GET fs raw = errorResponse 404 := by
  have hnf : isfile fs (translate_path raw) = false := by
    simp [isfile, hmiss]
  have hnd : isdir fs (translate_path raw) = false := by
    simp [isdir, hmiss]
  unfold do_GET
  rw [hnf, hdotRaw]
  simp only [Bool.false_eq_true, if_false, if_true]
  unfold simple_do_GET
  rw [hnd]
  simp only [Bool.false_eq_true, if_false]
  unfold servePath openFile
  rw [hmiss]
  simp

/-- Witness for C10: /dashboard does not exist and has no extension, but the
query string of the target /dashboard?v=1.2 puts a dot after the last slash,
so the handler answers 404 rather than serving index.html. -/
theorem spa_query_dot_404_witness :
    do_GET fsW "/dashboard?v=1.2" = errorResponse 404 :=
  spa_query_dot_404 fsW "/dashboard?v=1.2" (by decide) (by decide) (by decide)

/-- Claim C5, counterexample: /app.js exists as a regular file but open raises
OSError on it; the stock handler maps that OSError to a 404 error page, not
to any 500-class status. -/
theorem spa_io_error_counterexample :
    isfile fsLocked (translate_path "/app.js") = true ∧
      do_GET fsLocked "/app.js" = errorResponse 404 ∧
      (do_GET fsLocked "/app.js").status < 500 := by
  decide

/-- Claim C5 as amended: an I/O error when opening the requested file yields a
404 error page (not a 500-class status) for that request only; the handler
answers every request, and the responses to the remaining requests of the
run are exactly what they would be on their own. -/
theorem spa_io_error_404_isolated (fs : FS) (raw : String) (comps : List String)
    (b : List Nat)
    (ht : translate_path raw = (comps, false))
    (hf : lookupFS fs comps = some (Node.file b false)) :
    do_GET fs raw = errorResponse 404 ∧
      ∀ rs, serve fs (raw :: rs) = errorResponse 404 :: serve fs rs := by
  have hisf : isfile fs (translate_path raw) = true := by
    rw [ht]
    simp [isfile, hf]
  have h404 : do_GET fs raw = errorResponse 404 := by
    unfold do_GET
    rw [hisf]
    simp only [if_true]
    unfold simple_do_GET
    rw [ht]
    have hd : isdir fs (comps, false) = false := by
      simp [isdir, hf]
    rw [hd]
    simp only [Bool.false_eq_true, if_false]
    unfold servePath openFile
    rw [hf]
    simp
  refine ⟨h404, fun rs => ?_⟩
  have hstep : serve fs (raw :: rs) = do_GET fs raw :: serve fs rs := rfl
  rw [hstep, h404]

/-- Witness for the amended C5: the unreadable /app.js answers 404, and a
following request is answered exactly as it would be alone. -/
theorem spa_io_error_404_isolated_witness :
    do_GET fsLocked "/app.js" = errorResponse 404 ∧
      serve fsLocked ["/app.js", "/x"] = errorResponse 404 :: serve fsLocked ["/x"] :=
  ⟨(spa_io_error_404_isolated fsLocked "/app.js" ["app.js"] [7]
      (by decide) (by decide)).1,
   (spa_io_error_404_isolated fsLocked "/app.js" ["app.js"] [7]
      (by decide) (by decide)).2 ["/x"]⟩

/-- Claim C4: no request can read a file from outside the document root — the
components surviving translate_path never include a dot-dot (nor a dot nor an
empty segment), and every 200 response carrying file bytes carries the bytes
of a readable regular file recorded in the document tree under the root. -/
theorem spa_traversal_safe (raw : String) :
    (∀ w ∈ (translate_path raw).1, w ≠ ".." ∧ w ≠ "." ∧ w ≠ "") ∧
      (∀ (fs : FS) (ct : Option String) (b : List Nat),
        do_GET fs raw = ⟨200, ct, Body.bytes b⟩ →
        ∃ comps, lookupFS fs comps = some (Node.file b true) ∧
          (comps, Node.file b true) ∈ fs.entries) := by
  constructor
  · intro w hw
    unfold translate_path at hw
    simp only at hw
    rcases List.mem_map.mp hw with ⟨w', hw', rfl⟩
    have hp := (List.mem_filter.mp hw').2
    simp only [decide_eq_true_eq] at hp
    have hne : ¬ (w' = ['.'] ∨ w' = ['.', '.']) := hp
    have hempty := (List.mem_filter.mp (List.mem_filter.mp hw').1).2
    simp only [decide_eq_true_eq] at hempty
    refine ⟨?_, ?_, ?_⟩
    · intro h
      exact hne (Or.inr (by simpa using congrArg String.data h))
    · intro h
      exact hne (Or.inl (by simpa using congrArg String.data h))
    · intro h
      exact hempty (by simpa using congrArg String.data h)
  · intro fs ct b h
    rcases do_GET_bytes h with ⟨comps, hc⟩
    exact ⟨comps, hc, lookupFS_mem hc⟩

/-- Witness for C4: instantiated on the concrete tree at the target /app.js,
whose 200 response bytes are located in the tree. -/
theorem spa_traversal_safe_witness :
    ∃ comps, lookupFS fsW comps = some (Node.file [1, 2, 3] true) ∧
      (comps, Node.file [1, 2, 3] true) ∈ fsW.entries :=
  (spa_traversal_safe "/app.js").2 fsW (some "text/javascript") [1, 2, 3] (by decide)

/-- Claim C6: if at startup the document root is missing or unreadable, or the
listen port is already bound, the process stops with an error before any
request is served, its exit status is nonzero, and a diagnostic is emitted;
the straight-line startup code retries nothing. -/
theorem spa_startup_failure_fatal (env : Env) (fs : FS) (reqs : List String)
    (h : env.rootOk = false ∨ env.portFree = false) :
    exitCode (startup env fs reqs) ≠ 0 ∧
      servedResponses (startup env fs reqs) = [] ∧
      ∃ e, startup env fs reqs = Except.error e ∧ (diagnostic e).length ≠ 0 := by
  by_cases hr : env.rootOk = false
  · have hs : startup env fs reqs = Except.error StartupError.rootMissing := by
      simp [startup, hr]
    refine ⟨?_, ?_, StartupError.rootMissing, hs, ?_⟩
    · rw [hs]
      simp [exitCode]
    · rw [hs]
      simp [servedResponses]
    · decide
  · have hp : env.portFree = false := h.resolve_left hr
    have hs : startup env fs reqs = Except.error StartupError.portInUse := by
      simp [startup, hr, hp]
    refine ⟨?_, ?_, StartupError.portInUse, hs, ?_⟩
    · rw [hs]
      simp [exitCode]
    · rw [hs]
      simp [servedResponses]
    · decide

/-- Witness for C6: with the port already bound, startup fails, exits nonzero
and serves nothing. -/
theorem spa_startup_failure_fatal_witness :
    exitCode (startup ⟨true, false⟩ fsW ["/"]) ≠ 0 ∧
      servedResponses (startup ⟨true, false⟩ fsW ["/"]) = [] :=
  ⟨(spa_startup_failure_fatal ⟨true, false⟩ fsW ["/"] (Or.inr rfl)).1,
   (spa_startup_failure_fatal ⟨true, false⟩ fsW ["/"] (Or.inr rfl)).2.1⟩

/-- The response at any position of a run is the handler applied to the
request at that position. -/
theorem serve_pos (fs : FS) (p : String) (pre post : List String) :
    (serve fs (pre ++ p :: post))[pre.length]? = some (do_GET fs p) := by
  induction pre with
  | nil => simp [serve]
  | cons q pre ih => simpa [serve] using ih

/-- Claim C7: repeating an identical GET yields byte-identical responses — in
any two runs over the same document tree, the responses at positions holding
the same request target coincide (and equal the pure handler's answer), the
server carrying no state across requests. -/
theorem spa_get_idempotent (fs : FS) (p : String)
    (pre₁ post₁ pre₂ post₂ : List String) :
    (serve fs (pre₁ ++ p :: post₁))[pre₁.length]? = some (do_GET fs p) ∧
      (serve fs (pre₁ ++ p :: post₁))[pre₁.length]? =
        (serve fs (pre₂ ++ p :: post₂))[pre₂.length]? := by
  rw [serve_pos, serve_pos]
  exact ⟨rfl, rfl⟩

end SpaServer
